import Mathlib

/-!
Shallow embedding of the Task-Manager-CLI core (src/main.py) and proofs about
its store and query operations.

Modelling conventions:
  - Python dict tasks become the `Task` structure; JSON null becomes `Option`.
  - `print` warnings about invalid enum values become explicit `Warning` values
    returned by the operations.
  - The current clock (`datetime.now().strftime(...)`) and the random id draw
    (`str(uuid.uuid4())`) are passed in as explicit `now` / `genId` arguments.
  - Each mutating operation returns both its Python return value and the
    collection it passed to `save_tasks` (`none` when it never saved).
  - Python string truthiness (`if status:`) is modelled by `truthy`, which
    treats the empty string like an absent value.
-/

namespace TaskManager

/-- Shallow embedding of a task record as created by `add_task` in
src/main.py (lines 41-51): the fields of the JSON object, with JSON null
rendered as `Option`. -/
structure Task where
  id : String
  title : String
  description : String
  priority : String
  status : String
  created_at : String
  due_date : Option String
  completed_at : Option String
  tags : List String
deriving Repr, DecidableEq

/-- Embedding of the constant `PRIORITIES` (src/main.py line 12). -/
def PRIORITIES : List String := ["low", "medium", "high", "critical"]

/-- Embedding of the constant `STATUSES` (src/main.py line 13). -/
def STATUSES : List String := ["pending", "in_progress", "completed", "cancelled"]

/-- Warnings the source reports with `print` when an enum value is invalid
(src/main.py lines 37, 147, 153). -/
inductive Warning where
  | invalidPriority (given : String)
  | invalidStatus (given : String)
deriving Repr, DecidableEq

/-- ASCII lowercasing of one character, as Python `str.lower` performs on the
ASCII enum values and tags this program handles. -/
def lowerChar (c : Char) : Char :=
  if 65 ≤ c.toNat ∧ c.toNat ≤ 90 then Char.ofNat (c.toNat + 32) else c

/-- Embedding of Python `str.lower()` (used at src/main.py lines 36, 45, 68,
71, 74, 77, 80, 146, 149, 152, 156): characterwise ASCII lowercasing. -/
def lower (s : String) : String := ⟨s.data.map lowerChar⟩

/-- Embedding of the Python slice `s[:n]` on a string (src/main.py line 42
keeps `str(uuid.uuid4())[:8]`): the first `n` characters. -/
def slice (s : String) (n : Nat) : String := ⟨s.data.take n⟩

/-- Python truthiness of an optional string argument (`if status:`,
`if priority:`, `if tag:` in src/main.py lines 67, 73, 79): `None` and the
empty string both count as absent. -/
def truthy (o : Option String) : Option String :=
  match o with
  | none => none
  | some s => if s = "" then none else some s

/-- Observable contents of the tasks file while `save_tasks`
(src/main.py lines 26-29) runs: either a fully serialized collection, or the
truncated file that `open(tasks_file, "w")` leaves before `json.dump` has
written the new contents. -/
inductive FileState where
  | contents (tasks : List Task)
  | truncated
deriving Repr, DecidableEq

/-- Embedding of `save_tasks` (src/main.py lines 26-29) as the sequence of
file states a concurrent observer (or a crash) can see: the old contents,
then the truncated file produced by `open(tasks_file, "w")` (line 28), then
the new contents written by `json.dump` (line 29). -/
def save_tasks (tasks : List Task) (old : FileState) : List FileState :=
  [old, FileState.truncated, FileState.contents tasks]

/-- Result of `add_task`: the collection passed to `save_tasks`, the returned
id, and the warnings printed. -/
structure AddResult where
  saved : List Task
  ret : String
  warnings : List Warning
deriving Repr, DecidableEq

/-- Embedding of `add_task` (src/main.py lines 31-60). `genId` is the string
form of the fresh `uuid.uuid4()` draw (line 42 keeps its first 8 characters),
`now` the formatted current time (line 47). -/
def add_task (genId now : String) (title : String) (description : String := "")
    (priority : String := "medium") (due_date : Option String := none)
    (tags : Option (List String) := none) (tasks : List Task) : AddResult :=
  let pw : String × List Warning :=
    if lower priority ∈ PRIORITIES then (priority, ([] : List Warning))
    else ("medium", [Warning.invalidPriority priority])
  let task : Task :=
    { id := slice genId 8
      title := title
      description := description
      priority := lower pw.1
      status := "pending"
      created_at := now
      due_date := due_date
      completed_at := none
      tags := tags.getD [] }
  { saved := tasks ++ [task], ret := task.id, warnings := pw.2 }

/-- Embedding of the dict `priority_order` built in `list_tasks`
(src/main.py line 85) together with its `.get(x, 0)` lookup (line 86):
the index of a priority in `PRIORITIES`, defaulting to 0. -/
def priority_order (p : String) : Nat :=
  if p ∈ PRIORITIES then PRIORITIES.indexOf p else 0

/-- Stable insertion (descending by `k`) modelling one step of Python
`sorted(tasks, key=..., reverse=True)` (src/main.py line 86): an element is
placed before the first element whose key is not greater, so equal keys keep
their input order. -/
def insertDesc (k : Task → Nat) (x : Task) : List Task → List Task
  | [] => [x]
  | y :: ys => if k x < k y then y :: insertDesc k x ys else x :: y :: ys

/-- Stable descending sort by `k`, modelling `sorted(..., reverse=True)`
(src/main.py line 86). -/
def sortDesc (k : Task → Nat) : List Task → List Task
  | [] => []
  | x :: xs => insertDesc k x (sortDesc k xs)

/-- Stable insertion (ascending by a string key) modelling one step of Python
`sorted(tasks, key=...)` (src/main.py line 88). -/
def insertAsc (k : Task → String) (x : Task) : List Task → List Task
  | [] => [x]
  | y :: ys => if k y < k x then y :: insertAsc k x ys else x :: y :: ys

/-- Stable ascending sort by a string key, modelling `sorted(tasks, key=...)`
(src/main.py line 88). -/
def sortAsc (k : Task → String) : List Task → List Task
  | [] => []
  | x :: xs => insertAsc k x (sortAsc k xs)

/-- The sort key `x[sort_by] if x[sort_by] is not None else ""` used for the
`created_at` / `due_date` branches of the sort (src/main.py line 88). -/
def sort_value (sort_by : String) (t : Task) : String :=
  if sort_by = "due_date" then (match t.due_date with | none => "" | some d => d)
  else t.created_at

/-- Embedding of the query core of `list_tasks` (src/main.py lines 62-92):
the filtered and sorted view the function computes before rendering it.
`none` models the early error returns for an invalid status or priority
filter (lines 68-70 and 74-76); a successful query returns `some` of the
view, possibly empty. -/
def list_tasks (status priority tag : Option String) (sort_by : String)
    (tasks0 : List Task) : Option (List Task) :=
  let step1 : Option (List Task) :=
    match truthy status with
    | none => some tasks0
    | some s =>
        if lower s ∈ STATUSES then
          some (tasks0.filter (fun t => t.status == lower s))
        else none
  match step1 with
  | none => none
  | some tasks1 =>
    let step2 : Option (List Task) :=
      match truthy priority with
      | none => some tasks1
      | some p =>
          if lower p ∈ PRIORITIES then
            some (tasks1.filter (fun t => t.priority == lower p))
          else none
    match step2 with
    | none => none
    | some tasks2 =>
      let tasks3 :=
        match truthy tag with
        | none => tasks2
        | some g => tasks2.filter (fun t => (t.tags.map lower).contains (lower g))
      let tasks4 :=
        if sort_by = "priority" then sortDesc (fun t => priority_order t.priority) tasks3
        else if sort_by = "created_at" ∨ sort_by = "due_date" then
          sortAsc (sort_value sort_by) tasks3
        else tasks3
      some tasks4

/-- Embedding of the field-by-field mutation `update_task` performs on the
matched task (src/main.py lines 138-168), returning the updated task and the
warnings printed. `now` is the formatted current time used for `completed_at`
(line 160). -/
def applyUpdate (now : String) (title description priority status due_date : Option String)
    (tags : Option (List String)) (t : Task) : Task × List Warning :=
  let t1 := match title with
    | none => t
    | some v => { t with title := v }
  let t2 := match description with
    | none => t1
    | some v => { t1 with description := v }
  let (t3, w1) := match priority with
    | none => (t2, ([] : List Warning))
    | some v =>
        if lower v ∈ PRIORITIES then ({ t2 with priority := lower v }, [])
        else (t2, [Warning.invalidPriority v])
  let (t4, w2) := match status with
    | none => (t3, ([] : List Warning))
    | some v =>
        if lower v ∈ STATUSES then
          let old_status := t3.status
          let t4a := { t3 with status := lower v }
          let t4b :=
            if t4a.status = "completed" ∧ old_status ≠ "completed" then
              { t4a with completed_at := some now }
            else if t4a.status ≠ "completed" then
              { t4a with completed_at := none }
            else t4a
          (t4b, [])
        else (t3, [Warning.invalidStatus v])
  let t5 := match due_date with
    | none => t4
    | some v => { t4 with due_date := some v }
  let t6 := match tags with
    | none => t5
    | some v => { t5 with tags := v }
  (t6, w1 ++ w2)

/-- Result of `update_task`: its Python return value, the collection passed
to `save_tasks` (`none` when no task matched and nothing was saved), and the
warnings printed. -/
structure UpdateResult where
  ret : Bool
  saved : Option (List Task)
  warnings : List Warning
deriving Repr, DecidableEq

/-- Embedding of `update_task` (src/main.py lines 131-177): walk the list,
mutate the first task whose id matches (via `applyUpdate`), save the whole
collection and return `True`; return `False` without saving when no task
matches. -/
def update_task (now task_id : String)
    (title description priority status due_date : Option String)
    (tags : Option (List String)) : List Task → UpdateResult
  | [] => { ret := false, saved := none, warnings := [] }
  | t :: ts =>
      if t.id = task_id then
        let p := applyUpdate now title description priority status due_date tags t
        { ret := true, saved := some (p.1 :: ts), warnings := p.2 }
      else
        let r := update_task now task_id title description priority status due_date tags ts
        { r with saved := r.saved.map (fun l => t :: l) }

/-- Result of `delete_task`: its Python return value and the collection passed
to `save_tasks` (`none` when no task matched and nothing was saved). -/
structure DeleteResult where
  ret : Bool
  saved : Option (List Task)
deriving Repr, DecidableEq

/-- Embedding of `delete_task` (src/main.py lines 179-196): remove the first
task whose id matches, save, return `True`; return `False` without saving
when no task matches. -/
def delete_task (task_id : String) : List Task → DeleteResult
  | [] => { ret := false, saved := none }
  | t :: ts =>
      if t.id = task_id then { ret := true, saved := some ts }
      else
        let r := delete_task task_id ts
        { r with saved := r.saved.map (fun l => t :: l) }

/-- Arguments of one `add_task` call in a sequence of adds: the fresh
`uuid.uuid4()` string drawn for it plus the caller-supplied fields. -/
structure AddCall where
  genId : String
  now : String
  title : String
  description : String := ""
  priority : String := "medium"
  due_date : Option String := none
  tags : Option (List String) := none
deriving Repr, DecidableEq

/-- Runs a sequence of `add_task` calls, each one operating on the collection
the previous call saved (every CLI invocation loads what the previous one
wrote), and collects the returned ids. -/
def run_adds : List AddCall → List Task → List Task × List String
  | [], tasks => (tasks, [])
  | c :: cs, tasks =>
      let r := add_task c.genId c.now c.title c.description c.priority c.due_date c.tags tasks
      let rest := run_adds cs r.saved
      (rest.1, r.ret :: rest.2)

/-! ### Descriptors of the update semantics, used to state theorems -/

/-- The priority `applyUpdate` leaves on the task: the lowercased provided
value when it is a valid enum member, the old value otherwise. -/
def appliedPriority (priority : Option String) (old : String) : String :=
  match priority with
  | none => old
  | some v => if lower v ∈ PRIORITIES then lower v else old

/-- The status `applyUpdate` leaves on the task: the lowercased provided
value when it is a valid enum member, the old value otherwise. -/
def appliedStatus (status : Option String) (old : String) : String :=
  match status with
  | none => old
  | some v => if lower v ∈ STATUSES then lower v else old

/-- The `completed_at` value `applyUpdate` leaves on the task: set to `now`
on a transition to `completed`, cleared when the new status is not
`completed`, untouched otherwise. -/
def appliedCompletedAt (now : String) (status : Option String) (oldStatus : String)
    (oldCompleted : Option String) : Option String :=
  match status with
  | none => oldCompleted
  | some v =>
      if lower v ∈ STATUSES then
        if lower v = "completed" ∧ oldStatus ≠ "completed" then some now
        else if lower v ≠ "completed" then none
        else oldCompleted
      else oldCompleted

/-- The warnings `update_task` prints: one per provided enum field whose
value is invalid, priority first. -/
def updateWarnings (priority status : Option String) : List Warning :=
  (match priority with
   | none => []
   | some v => if lower v ∈ PRIORITIES then [] else [Warning.invalidPriority v]) ++
  (match status with
   | none => []
   | some v => if lower v ∈ STATUSES then [] else [Warning.invalidStatus v])

/-! ### Helper lemmas -/

lemma applyUpdate_eq (now : String)
    (title description priority status due_date : Option String)
    (tags : Option (List String)) (t : Task) :
    applyUpdate now title description priority status due_date tags t =
      ({ id := t.id
         title := title.getD t.title
         description := description.getD t.description
         priority := appliedPriority priority t.priority
         status := appliedStatus status t.status
         created_at := t.created_at
         due_date := (match due_date with | none => t.due_date | some v => some v)
         completed_at := appliedCompletedAt now status t.status t.completed_at
         tags := tags.getD t.tags },
       updateWarnings priority status) := by
  cases t
  cases title <;> cases description <;> cases priority <;> cases status <;>
    cases due_date <;> cases tags <;>
    (dsimp only [applyUpdate, appliedPriority, appliedStatus, appliedCompletedAt,
      updateWarnings, Option.getD]) <;>
    split_ifs <;> rfl

lemma update_task_not_found (now task_id : String)
    (title description priority status due_date : Option String)
    (tags : Option (List String)) (tasks : List Task)
    (h : ∀ t ∈ tasks, t.id ≠ task_id) :
    update_task now task_id title description priority status due_date tags tasks =
      { ret := false, saved := none, warnings := [] } := by
  induction tasks with
  | nil => rfl
  | cons t ts ih =>
      have ht : t.id ≠ task_id := h t (List.mem_cons_self t ts)
      simp only [update_task, if_neg ht,
        ih (fun u hu => h u (List.mem_cons_of_mem t hu))]
      rfl

lemma update_task_found (now task_id : String)
    (title description priority status due_date : Option String)
    (tags : Option (List String)) (pre post : List Task) (t : Task)
    (hpre : ∀ u ∈ pre, u.id ≠ task_id) (ht : t.id = task_id) :
    update_task now task_id title description priority status due_date tags
        (pre ++ t :: post) =
      { ret := true
        saved := some (pre ++
          (applyUpdate now title description priority status due_date tags t).1 :: post)
        warnings :=
          (applyUpdate now title description priority status due_date tags t).2 } := by
  induction pre with
  | nil => simp [update_task, ht]
  | cons u us ih =>
      have hu : u.id ≠ task_id := hpre u (List.mem_cons_self u us)
      have ih2 := ih (fun v hv => hpre v (List.mem_cons_of_mem u hv))
      simp only [List.cons_append, update_task, if_neg hu, List.append_eq, ih2,
        Option.map_some']

lemma delete_task_not_found (task_id : String) (tasks : List Task)
    (h : ∀ t ∈ tasks, t.id ≠ task_id) :
    delete_task task_id tasks = { ret := false, saved := none } := by
  induction tasks with
  | nil => rfl
  | cons t ts ih =>
      have ht : t.id ≠ task_id := h t (List.mem_cons_self t ts)
      simp only [delete_task, if_neg ht,
        ih (fun u hu => h u (List.mem_cons_of_mem t hu))]
      rfl

lemma add_task_ret (genId now title description priority : String)
    (due_date : Option String) (tags : Option (List String)) (tasks : List Task) :
    (add_task genId now title description priority due_date tags tasks).ret =
      slice genId 8 := by
  simp only [add_task]

lemma run_adds_cons (c : AddCall) (cs : List AddCall) (ts : List Task) :
    run_adds (c :: cs) ts =
      ((run_adds cs
          (add_task c.genId c.now c.title c.description c.priority c.due_date c.tags
            ts).saved).1,
        (add_task c.genId c.now c.title c.description c.priority c.due_date c.tags
            ts).ret ::
          (run_adds cs
            (add_task c.genId c.now c.title c.description c.priority c.due_date c.tags
              ts).saved).2) := by
  simp only [run_adds]

lemma mem_insertDesc (k : Task → Nat) (x a : Task) (l : List Task) :
    a ∈ insertDesc k x l ↔ a = x ∨ a ∈ l := by
  induction l with
  | nil => simp [insertDesc]
  | cons y ys ih =>
      simp only [insertDesc]
      split_ifs with h
      · simp only [List.mem_cons, ih]
        tauto
      · simp only [List.mem_cons]

lemma mem_sortDesc (k : Task → Nat) (a : Task) (l : List Task) :
    a ∈ sortDesc k l ↔ a ∈ l := by
  induction l with
  | nil => simp [sortDesc]
  | cons x xs ih =>
      simp only [sortDesc, mem_insertDesc, ih, List.mem_cons]

lemma mem_insertAsc (k : Task → String) (x a : Task) (l : List Task) :
    a ∈ insertAsc k x l ↔ a = x ∨ a ∈ l := by
  induction l with
  | nil => simp [insertAsc]
  | cons y ys ih =>
      simp only [insertAsc]
      split_ifs with h
      · simp only [List.mem_cons, ih]
        tauto
      · simp only [List.mem_cons]

lemma mem_sortAsc (k : Task → String) (a : Task) (l : List Task) :
    a ∈ sortAsc k l ↔ a ∈ l := by
  induction l with
  | nil => simp [sortAsc]
  | cons x xs ih =>
      simp only [sortAsc, mem_insertAsc, ih, List.mem_cons]

lemma pairwise_insertDesc (k : Task → Nat) (x : Task) (l : List Task)
    (h : List.Pairwise (fun a b => k b ≤ k a) l) :
    List.Pairwise (fun a b => k b ≤ k a) (insertDesc k x l) := by
  induction l with
  | nil => simp [insertDesc]
  | cons y ys ih =>
      rcases List.pairwise_cons.mp h with ⟨hy, hys⟩
      simp only [insertDesc]
      split_ifs with hlt
      · refine List.pairwise_cons.mpr ⟨?_, ih hys⟩
        intro a ha
        rcases (mem_insertDesc k x a ys).mp ha with rfl | ha
        · exact Nat.le_of_lt hlt
        · exact hy a ha
      · refine List.pairwise_cons.mpr ⟨?_, h⟩
        intro a ha
        rcases List.mem_cons.mp ha with rfl | ha
        · exact Nat.le_of_not_lt hlt
        · exact Nat.le_trans (hy a ha) (Nat.le_of_not_lt hlt)

lemma pairwise_sortDesc (k : Task → Nat) (l : List Task) :
    List.Pairwise (fun a b => k b ≤ k a) (sortDesc k l) := by
  induction l with
  | nil => simp [sortDesc]
  | cons x xs ih => exact pairwise_insertDesc k x (sortDesc k xs) ih

lemma filter_insertDesc (k : Task → Nat) (v : Nat) (x : Task) (l : List Task) :
    (insertDesc k x l).filter (fun a => k a == v) =
      (x :: l).filter (fun a => k a == v) := by
  induction l with
  | nil => simp [insertDesc]
  | cons y ys ih =>
      simp only [insertDesc]
      split_ifs with hlt
      · by_cases hx : k x = v
        · have hy : ¬ (k y = v) := by omega
          simp only [List.filter_cons, ih]
          simp [hx, hy]
        · simp only [List.filter_cons, ih]
          simp [hx]
      · rfl

lemma filter_sortDesc (k : Task → Nat) (v : Nat) (l : List Task) :
    (sortDesc k l).filter (fun a => k a == v) = l.filter (fun a => k a == v) := by
  induction l with
  | nil => rfl
  | cons x xs ih =>
      simp only [sortDesc, filter_insertDesc, List.filter_cons, ih]

lemma lower_eq_completed_iff (s : String) (h : s ∈ STATUSES) :
    lower s = "completed" ↔ s = "completed" := by
  simp only [STATUSES, List.mem_cons, List.mem_singleton, List.not_mem_nil,
    or_false] at h
  rcases h with rfl | rfl | rfl | rfl <;> decide

/-! ### Concrete fixture tasks used in witnesses and counterexamples -/

/-- A freshly added pending task, as `add_task` creates it. -/
def taskPending : Task :=
  { id := "abc123de", title := "Buy milk", description := "", priority := "high",
    status := "pending", created_at := "2024-01-01 09:00:00", due_date := none,
    completed_at := none, tags := ["home"] }

/-- A task whose stored status is `completed` while `completed_at` is null,
as a loaded store may contain (the spec itself notes `completed_at` "can be
stale if set externally"). -/
def taskDoneNull : Task :=
  { id := "deadbeef", title := "Old", description := "", priority := "medium",
    status := "completed", created_at := "2023-12-31 08:00:00", due_date := none,
    completed_at := none, tags := [] }

/-- Fixture with priority low. -/
def taskLow : Task :=
  { id := "id1", title := "a", description := "", priority := "low",
    status := "pending", created_at := "c1", due_date := none,
    completed_at := none, tags := [] }

/-- First fixture with priority critical. -/
def taskCrit1 : Task :=
  { id := "id2", title := "b", description := "", priority := "critical",
    status := "pending", created_at := "c2", due_date := none,
    completed_at := none, tags := [] }

/-- Fixture with priority medium. -/
def taskMed : Task :=
  { id := "id3", title := "c", description := "", priority := "medium",
    status := "pending", created_at := "c3", due_date := none,
    completed_at := none, tags := [] }

/-- Second fixture with priority critical. -/
def taskCrit2 : Task :=
  { id := "id4", title := "d", description := "", priority := "critical",
    status := "pending", created_at := "c4", due_date := none,
    completed_at := none, tags := [] }

/-- A completed task tagged `Home`, for the conjunction-filter witness. -/
def taskHomeDone : Task :=
  { id := "id5", title := "e", description := "", priority := "low",
    status := "completed", created_at := "c5", due_date := none,
    completed_at := some "c6", tags := ["Home", "errand"] }

/-! ### Claim theorems -/

/-- C2 (counterexample): the claim says that at every point during `save_tasks`
either the old or the new file content is visible. It is false at a concrete
input: `save_tasks` opens the file in write mode, which truncates it before
`json.dump` writes the new collection, so the truncated state — neither the
old contents `[taskPending]` nor the new contents `[taskDoneNull]` — is
visible in between. -/
theorem C2_claim_counterexample :
    ¬ (∀ s ∈ save_tasks [taskDoneNull] (FileState.contents [taskPending]),
        s = FileState.contents [taskPending] ∨ s = FileState.contents [taskDoneNull]) := by
  intro h
  rcases h FileState.truncated (by simp [save_tasks]) with h1 | h1 <;> exact
    FileState.noConfusion h1

/-- C2 (amended): `save_tasks` writes the full collection, replacing any prior
contents — when it completes, the file holds exactly the new collection. It is
not atomic: it truncates the file in place (`open(tasks_file, "w")`) and then
writes, so between truncation and write completion a truncated file that is
neither the old nor the new content is observable, and an interrupted save
leaves a partial file. -/
theorem C2_save_replaces_but_not_atomic (tasks oldTasks : List Task) :
    (save_tasks tasks (FileState.contents oldTasks)).getLast? =
        some (FileState.contents tasks) ∧
    FileState.truncated ∈ save_tasks tasks (FileState.contents oldTasks) ∧
    FileState.truncated ≠ FileState.contents oldTasks ∧
    FileState.truncated ≠ FileState.contents tasks := by
  refine ⟨rfl, by simp [save_tasks], fun h => FileState.noConfusion h,
    fun h => FileState.noConfusion h⟩

/-- C3 (counterexample): the claim says the ids generated by any sequence of
`Add` calls are pairwise distinct. It is false at a concrete input: two calls
whose (distinct) `uuid.uuid4()` draws share their first 8 characters produce
the same id, since `add_task` keeps only `str(uuid.uuid4())[:8]` and performs
no collision check. -/
theorem C3_claim_counterexample :
    ¬ List.Pairwise (fun a b => a ≠ b)
        ((run_adds
            [{ genId := "aaaaaaaa-1111-4000-8000-000000000000",
               now := "2024-01-01 09:00:00", title := "t1" },
             { genId := "aaaaaaaa-2222-4000-8000-000000000000",
               now := "2024-01-01 09:00:01", title := "t2" }] []).2) := by
  decide

/-- C3 (amended): the id of each added task is exactly the first 8 characters
of the `uuid.uuid4()` string drawn for that call, so the ids of a sequence of
`Add` calls are pairwise distinct precisely when those 8-character prefixes
are pairwise distinct; the code performs no uniqueness check of its own, so
uniqueness (and non-reuse after deletion) holds only with high probability
over the random draws, not for every sequence. -/
theorem C3_ids_are_uuid_prefixes (calls : List AddCall) (tasks : List Task) :
    (run_adds calls tasks).2 = calls.map (fun c => slice c.genId 8) ∧
    (List.Pairwise (fun a b => a ≠ b) ((run_adds calls tasks).2) ↔
      List.Pairwise (fun a b => a ≠ b) (calls.map (fun c => slice c.genId 8))) := by
  have h : ∀ (cs : List AddCall) (ts : List Task),
      (run_adds cs ts).2 = cs.map (fun c => slice c.genId 8) := by
    intro cs
    induction cs with
    | nil => intro ts; rfl
    | cons c cs ih =>
        intro ts
        rw [run_adds_cons, List.map_cons, add_task_ret]
        rw [ih]
  exact ⟨h calls tasks, by rw [h calls tasks]⟩

/-- C4: when no task in the collection has the requested id, `update_task`
returns `False` and never calls `save_tasks` (so the persisted store and the
collection it would persist are unchanged), and `delete_task` likewise
returns `False` without saving. -/
theorem C4_missing_id_is_noop (now task_id : String)
    (title description priority status due_date : Option String)
    (tags : Option (List String)) (tasks : List Task)
    (h : ∀ t ∈ tasks, t.id ≠ task_id) :
    update_task now task_id title description priority status due_date tags tasks =
      { ret := false, saved := none, warnings := [] } ∧
    delete_task task_id tasks = { ret := false, saved := none } :=
  ⟨update_task_not_found now task_id title description priority status due_date tags
      tasks h,
    delete_task_not_found task_id tasks h⟩

/-- C4 witness: updating or deleting the absent id `zzzzzzzz` in a one-task
store returns false and saves nothing. -/
theorem C4_missing_id_is_noop_witness :
    update_task "2024-06-01 12:00:00" "zzzzzzzz" (some "New") none none none none none
        [taskPending] =
      { ret := false, saved := none, warnings := [] } ∧
    delete_task "zzzzzzzz" [taskPending] = { ret := false, saved := none } :=
  C4_missing_id_is_noop "2024-06-01 12:00:00" "zzzzzzzz" (some "New") none none none
    none none [taskPending] (by decide)

/-- C9: `add_task` never rejects: for every input it appends exactly one new
task to the collection and saves the result. The new task has the first 8
characters of the fresh uuid as id, status `pending`, `completed_at` null,
`created_at` the current time, and the lowercased supplied priority when that
is a valid enum member — otherwise priority `medium` together with a reported
warning; the new id is returned. -/
theorem C9_add_never_rejects (genId now title description priority : String)
    (due_date : Option String) (tags : Option (List String)) (tasks : List Task) :
    add_task genId now title description priority due_date tags tasks =
      { saved := tasks ++
          [{ id := slice genId 8, title := title, description := description,
             priority := if lower priority ∈ PRIORITIES then lower priority
               else "medium",
             status := "pending", created_at := now, due_date := due_date,
             completed_at := none, tags := tags.getD [] }],
        ret := slice genId 8,
        warnings := if lower priority ∈ PRIORITIES then []
          else [Warning.invalidPriority priority] } := by
  by_cases h : lower priority ∈ PRIORITIES
  · simp [add_task, h]
  · simp [add_task, h]
    decide

/-- C10: `update_task` performs no non-emptiness validation on `title`: when
the task is found and `title` is explicitly provided as the empty string, the
task's title is set to the empty string and the collection is persisted, so
the data model's non-empty-title property is not preserved by update. -/
theorem C10_update_accepts_empty_title (now task_id : String) (pre post : List Task)
    (t : Task) (hpre : ∀ u ∈ pre, u.id ≠ task_id) (ht : t.id = task_id) :
    update_task now task_id (some "") none none none none none (pre ++ t :: post) =
      { ret := true, saved := some (pre ++ { t with title := "" } :: post),
        warnings := [] } := by
  rw [update_task_found now task_id (some "") none none none none none pre post t
    hpre ht, applyUpdate_eq]
  cases t
  rfl

/-- C10 witness: updating the pending fixture task with an explicitly empty
title stores it with an empty title. -/
theorem C10_update_accepts_empty_title_witness :
    update_task "2024-06-01 12:00:00" "abc123de" (some "") none none none none none
        [taskPending] =
      { ret := true, saved := some [{ taskPending with title := "" }],
        warnings := [] } :=
  C10_update_accepts_empty_title "2024-06-01 12:00:00" "abc123de" [] [] taskPending
    (by decide) (by decide)

/-- C5: when `update_task` finds the task, each provided field is applied
independently: `title`, `description`, `due_date` and `tags` are always
applied; a provided `priority` or `status` whose lowercased value is not in
its enum is skipped for that field alone, with a warning reported, while
every other provided field in the same call is still applied; fields not
provided are left unchanged; the collection is persisted and the call returns
`True`. -/
theorem C5_update_applies_fields_independently (now task_id : String)
    (title description priority status due_date : Option String)
    (tags : Option (List String)) (pre post : List Task) (t : Task)
    (hpre : ∀ u ∈ pre, u.id ≠ task_id) (ht : t.id = task_id) :
    update_task now task_id title description priority status due_date tags
        (pre ++ t :: post) =
      { ret := true
        saved := some (pre ++
          { id := t.id
            title := title.getD t.title
            description := description.getD t.description
            priority := appliedPriority priority t.priority
            status := appliedStatus status t.status
            created_at := t.created_at
            due_date := (match due_date with | none => t.due_date | some v => some v)
            completed_at := appliedCompletedAt now status t.status t.completed_at
            tags := tags.getD t.tags } :: post)
        warnings := updateWarnings priority status } := by
  rw [update_task_found now task_id title description priority status due_date tags
    pre post t hpre ht, applyUpdate_eq]

/-- C5 witness: on a store holding the pending fixture task, one update call
providing a new title, an invalid priority `urgent` and a valid status
`in_progress` keeps the old priority (with a warning), but still applies the
title and status, persists, and returns true. -/
theorem C5_update_applies_fields_independently_witness :
    update_task "2024-06-01 12:00:00" "abc123de" (some "Buy bread") none
        (some "urgent") (some "in_progress") none none [taskPending] =
      { ret := true
        saved := some
          [{ id := taskPending.id
             title := (some "Buy bread").getD taskPending.title
             description := (none : Option String).getD taskPending.description
             priority := appliedPriority (some "urgent") taskPending.priority
             status := appliedStatus (some "in_progress") taskPending.status
             created_at := taskPending.created_at
             due_date := taskPending.due_date
             completed_at := appliedCompletedAt "2024-06-01 12:00:00"
               (some "in_progress") taskPending.status taskPending.completed_at
             tags := (none : Option (List String)).getD taskPending.tags }]
        warnings := updateWarnings (some "urgent") (some "in_progress") } :=
  C5_update_applies_fields_independently "2024-06-01 12:00:00" "abc123de"
    (some "Buy bread") none (some "urgent") (some "in_progress") none none [] []
    taskPending (by decide) (by decide)

/-- C1 (counterexample): the claim says that for every task in the store,
`update` with `status=completed` sets `completed_at` to a non-null timestamp.
It is false at a concrete input: for a stored task whose status is already
`completed` while its `completed_at` is null, the update succeeds but no
transition happens, so `completed_at` stays null. -/
theorem C1_claim_counterexample :
    (update_task "2024-06-01 12:00:00" "deadbeef" none none none (some "completed")
        none none [taskDoneNull]).ret = true ∧
    (update_task "2024-06-01 12:00:00" "deadbeef" none none none (some "completed")
        none none [taskDoneNull]).saved = some [taskDoneNull] ∧
    taskDoneNull.completed_at = none := by
  decide

/-- C1 (amended): `completed_at` is managed by the transition rule: an update
that sets `status=completed` on a task whose current status is not
`completed` sets `completed_at` to the current timestamp; an update that sets
`status=pending` (away from `completed`) always resets `completed_at` to
null. (Re-setting `status=completed` on an already-completed task is not a
transition and leaves `completed_at` untouched.) -/
theorem C1_completed_at_transition_rule (now task_id : String) (pre post : List Task)
    (t : Task) (hpre : ∀ u ∈ pre, u.id ≠ task_id) (ht : t.id = task_id) :
    (t.status ≠ "completed" →
      update_task now task_id none none none (some "completed") none none
          (pre ++ t :: post) =
        { ret := true
          saved := some (pre ++
            { t with status := "completed", completed_at := some now } :: post)
          warnings := [] }) ∧
    update_task now task_id none none none (some "pending") none none
        (pre ++ t :: post) =
      { ret := true
        saved := some (pre ++
          { t with status := "pending", completed_at := none } :: post)
        warnings := [] } := by
  have hcl : lower "completed" = "completed" := by decide
  have hpl : lower "pending" = "pending" := by decide
  have hcs : ("completed" : String) ∈ STATUSES := by decide
  have hps : ("pending" : String) ∈ STATUSES := by decide
  constructor
  · intro hs
    rw [update_task_found now task_id none none none (some "completed") none none pre
      post t hpre ht, applyUpdate_eq]
    obtain ⟨i, ti, de, pr, st, ca, du, co, tg⟩ := t
    simp_all [appliedPriority, appliedStatus, appliedCompletedAt, updateWarnings]
  · rw [update_task_found now task_id none none none (some "pending") none none pre
      post t hpre ht, applyUpdate_eq]
    obtain ⟨i, ti, de, pr, st, ca, du, co, tg⟩ := t
    simp_all [appliedPriority, appliedStatus, appliedCompletedAt, updateWarnings]

/-- C1 witness: completing the pending fixture task stamps `completed_at`,
and a subsequent `status=pending` update clears it. -/
theorem C1_completed_at_transition_rule_witness :
    (taskPending.status ≠ "completed" →
      update_task "2024-06-01 12:00:00" "abc123de" none none none (some "completed")
          none none [taskPending] =
        { ret := true
          saved := some
            [{ taskPending with status := "completed", completed_at := some "2024-06-01 12:00:00" }]
          warnings := [] }) ∧
    update_task "2024-06-01 12:00:00" "abc123de" none none none (some "pending")
        none none [taskPending] =
      { ret := true
        saved := some
          [{ taskPending with status := "pending", completed_at := none }]
        warnings := [] } :=
  C1_completed_at_transition_rule "2024-06-01 12:00:00" "abc123de" [] [] taskPending
    (by decide) (by decide)

/-- C6: a given (non-empty, per the source's own truthiness test for "filter
given") status or priority filter value whose lowercased form is not in the
corresponding enum makes `list_tasks` reject the entire query with an error
and return no tasks, regardless of the other filters and of the sort key. -/
theorem C6_invalid_filter_rejects_query (tasks : List Task)
    (status priority tag : Option String) (sort_by : String) :
    (∀ s, status = some s → s ≠ "" → lower s ∉ STATUSES →
      list_tasks status priority tag sort_by tasks = none) ∧
    (∀ p, priority = some p → p ≠ "" → lower p ∉ PRIORITIES →
      list_tasks status priority tag sort_by tasks = none) := by
  constructor
  · rintro s rfl hs hmem
    simp [list_tasks, truthy, hs, hmem]
  · rintro p rfl hp hmem
    have htp : truthy (some p) = some p := by simp [truthy, hp]
    cases hst : truthy status with
    | none => simp [list_tasks, hst, htp, hmem]
    | some s =>
        by_cases hsv : lower s ∈ STATUSES
        · simp [list_tasks, hst, htp, hsv, hmem]
        · simp [list_tasks, hst, hsv]

/-- C6 witness: a `bogus` status filter and an `urgent` priority filter each
reject the whole query on a non-empty store. -/
theorem C6_invalid_filter_rejects_query_witness :
    list_tasks (some "bogus") none none "created_at" [taskPending] = none ∧
    list_tasks none (some "urgent") none "created_at" [taskPending] = none :=
  ⟨(C6_invalid_filter_rejects_query [taskPending] (some "bogus") none none
      "created_at").1 "bogus" rfl (by decide) (by decide),
   (C6_invalid_filter_rejects_query [taskPending] none (some "urgent") none
      "created_at").2 "urgent" rfl (by decide) (by decide)⟩

/-- C7: sorting by priority orders the view descending by the enum severity
rank (critical > high > medium > low): the result of `list_tasks` with sort
key `priority` is `sortDesc` of the collection, every adjacent pair in it has
non-increasing rank, and the sort is stable — for every rank value, the tasks
of that rank appear in exactly their original relative order. On the
priorities [low, critical, medium, critical] it yields both criticals first
in original order, then medium, then low. -/
theorem C7_priority_sort_desc_stable (tasks : List Task) :
    list_tasks none none none "priority" tasks =
      some (sortDesc (fun t => priority_order t.priority) tasks) ∧
    List.Pairwise
      (fun a b => priority_order b.priority ≤ priority_order a.priority)
      (sortDesc (fun t => priority_order t.priority) tasks) ∧
    (∀ v : Nat,
      (sortDesc (fun t => priority_order t.priority) tasks).filter
          (fun t => priority_order t.priority == v) =
        tasks.filter (fun t => priority_order t.priority == v)) ∧
    list_tasks none none none "priority" [taskLow, taskCrit1, taskMed, taskCrit2] =
      some [taskCrit1, taskCrit2, taskMed, taskLow] := by
  refine ⟨?_, pairwise_sortDesc _ tasks, fun v => filter_sortDesc _ v tasks, by decide⟩
  simp [list_tasks, truthy]

/-- C8: a query with both a status filter `completed` and a (non-empty) tag
filter returns exactly the tasks satisfying both conjuncts — status
case-insensitively equal to `completed` and at least one tag
case-insensitively equal to the filter value — whatever the sort key, on any
store whose statuses respect the data-model enum invariant. -/
theorem C8_status_and_tag_filter_conjunction (tasks : List Task) (g sort_by : String)
    (hg : g ≠ "") (hstat : ∀ t ∈ tasks, t.status ∈ STATUSES) :
    ∃ l, list_tasks (some "completed") none (some g) sort_by tasks = some l ∧
      ∀ t : Task, t ∈ l ↔
        (t ∈ tasks ∧ lower t.status = lower "completed" ∧
          ∃ x ∈ t.tags, lower x = lower g) := by
  have hcl : lower "completed" = "completed" := by decide
  have hcs : ("completed" : String) ∈ STATUSES := by decide
  have htr : truthy (some g) = some g := by simp [truthy, hg]
  refine ⟨if sort_by = "priority" then
      sortDesc (fun t => priority_order t.priority)
        ((tasks.filter (fun t => t.status == lower "completed")).filter
          (fun t => (t.tags.map lower).contains (lower g)))
    else if sort_by = "created_at" ∨ sort_by = "due_date" then
      sortAsc (sort_value sort_by)
        ((tasks.filter (fun t => t.status == lower "completed")).filter
          (fun t => (t.tags.map lower).contains (lower g)))
    else
      (tasks.filter (fun t => t.status == lower "completed")).filter
        (fun t => (t.tags.map lower).contains (lower g)), ?_, ?_⟩
  · simp only [list_tasks, show truthy (some "completed") = some "completed" from rfl,
      show truthy (none : Option String) = none from rfl, htr, hcl, if_pos hcs]
  · intro t
    have hmem4 : ∀ l3 : List Task,
        (t ∈ (if sort_by = "priority" then
            sortDesc (fun t => priority_order t.priority) l3
          else if sort_by = "created_at" ∨ sort_by = "due_date" then
            sortAsc (sort_value sort_by) l3
          else l3) ↔ t ∈ l3) := by
      intro l3
      split_ifs with h1 h2
      · exact mem_sortDesc _ t l3
      · exact mem_sortAsc _ t l3
      · exact Iff.rfl
    rw [hmem4]
    simp only [List.mem_filter, Bool.and_eq_true, beq_iff_eq, hcl,
      List.elem_iff, List.mem_map]
    constructor
    · rintro ⟨⟨htm, hsx⟩, x, hx, hlx⟩
      exact ⟨htm, by rw [lower_eq_completed_iff t.status (hstat t htm)]; exact hsx,
        x, hx, hlx⟩
    · rintro ⟨htm, hsx, x, hx, hlx⟩
      exact ⟨⟨htm,
        (lower_eq_completed_iff t.status (hstat t htm)).mp hsx⟩, x, hx, hlx⟩

/-- C8 witness: with a store holding a completed task tagged `Home` and a
pending task tagged `home`, the query with status `completed` and tag `HOME`
returns exactly the completed `Home`-tagged task. -/
theorem C8_status_and_tag_filter_conjunction_witness :
    ∃ l, list_tasks (some "completed") none (some "HOME") "zzz"
        [taskHomeDone, taskPending] = some l ∧
      ∀ t : Task, t ∈ l ↔
        (t ∈ [taskHomeDone, taskPending] ∧
          lower t.status = lower "completed" ∧
          ∃ x ∈ t.tags, lower x = lower "HOME") :=
  C8_status_and_tag_filter_conjunction [taskHomeDone, taskPending] "HOME" "zzz"
    (by decide) (by decide)

end TaskManager
